import Mathlib

/-
Verification of the client-side controller of a single-page personal site.
The embedding mirrors the two scripts of the repository:
  * assets/js/script.js       -- filter/navigation state controller
  * assets/js/blog-simple.js  -- content loading, rendering and modal viewer
DOM elements are modelled by the attributes the scripts read and write
(`data-category`, the `active` class, `data-page`, ...), the single element
tree by lists of such records, and exceptions by `Option`/`Except` or an
explicit error flag.
-/

/-- A filterable item (`[data-filter-item]`): its `data-category` attribute
(`none` when the markup carries no such attribute) and whether its class list
holds `active`. -/
structure Item where
  category : Option String
  active : Bool
deriving DecidableEq, Repr

/-- The two filterable sections of the page, mirroring the `.portfolio` and
`.articles` selector scopes used by `script.js`. -/
inductive SiteSection where
  | portfolio
  | articles
deriving DecidableEq, Repr

/-- `String.prototype.toLowerCase()` on one character. Every category string
of the site is ASCII, so the JS Unicode lowering coincides with ASCII
lowering. -/
def lowerChar (c : Char) : Char :=
  if 'A' ≤ c ∧ c ≤ 'Z' then Char.ofNat (c.toNat + 32) else c

/-- `String.prototype.toLowerCase()`. -/
def lowerStr (s : String) : String :=
  String.mk (s.toList.map lowerChar)

/-- Loop body of `portfolioFilterFunc` (script.js lines 63-71) on one item.
Returns `none` when `selectedValue` is not `"all"` and the item carries no
`data-category` attribute: there `portfolioItems[i].dataset.category` is
`undefined` and `.toLowerCase()` raises a TypeError. -/
def portfolioStep (selectedValue : String) (it : Item) : Option Item :=
  if selectedValue = "all" then some { it with active := true }
  else
    match it.category with
    | none => none
    | some c =>
      if selectedValue = lowerStr c then some { it with active := true }
      else some { it with active := false }

/-- Loop body of `articlesFilterFunc` (script.js lines 78-110) on one item,
including the `if (itemCategory)` truthiness guard — falsy both when the
`data-category` attribute is missing (`undefined`) and when it is the empty
string — and the three special-case mapping branches of the source. -/
def articlesStep (selectedValue : String) (it : Item) : Item :=
  if selectedValue = "all" then { it with active := true }
  else
    let shouldShow :=
      match it.category with
      | none => false
      | some c =>
        if c = "" then false
        else
          let categoryLower := lowerStr c
          if selectedValue = categoryLower then true
          else if selectedValue = "edge ai" ∧ categoryLower = "edge ai" then true
          else if selectedValue = "linux kernel" ∧ categoryLower = "linux kernel" then true
          else if selectedValue = "gpu programming" ∧ categoryLower = "gpu programming" then true
          else false
    if shouldShow then { it with active := true } else { it with active := false }

/-- Runs one filter loop over the document. `querySelectorAll(".X [data-filter-item]")`
restricts the loop to the items tagged with section `sec`; the loop rewrites
them in document order. A step returning `none` models the TypeError aborting
the loop: the throwing item and everything after it keep their previous state,
and the Bool of the result records that the loop threw. -/
def applyFilterDom (sec : SiteSection) (step : Item → Option Item) :
    List (SiteSection × Item) → List (SiteSection × Item) × Bool
  | [] => ([], false)
  | (t, it) :: rest =>
    if t = sec then
      match step it with
      | none => ((t, it) :: rest, true)
      | some it2 =>
        let r := applyFilterDom sec step rest
        ((t, it2) :: r.1, r.2)
    else
      let r := applyFilterDom sec step rest
      ((t, it) :: r.1, r.2)

/-- `portfolioFilterFunc` of script.js applied to the whole document. -/
def portfolioFilterFunc (selectedValue : String) (dom : List (SiteSection × Item)) :
    List (SiteSection × Item) × Bool :=
  applyFilterDom SiteSection.portfolio (portfolioStep selectedValue) dom

/-- `articlesFilterFunc` of script.js applied to the whole document. -/
def articlesFilterFunc (selectedValue : String) (dom : List (SiteSection × Item)) :
    List (SiteSection × Item) × Bool :=
  applyFilterDom SiteSection.articles (fun it => some (articlesStep selectedValue it)) dom

/-- The show/hide outcome the portfolio loop computes for an attributed item:
shown when `selectedValue` is `"all"`, otherwise shown exactly when the item
carries a category attribute whose lowercased value equals `selectedValue`
verbatim (the portfolio loop has no truthiness guard, so an empty attribute
still compares). -/
def filterShown (selectedValue : String) (it : Item) : Bool :=
  selectedValue == "all" ||
    (match it.category with
     | some c => selectedValue == lowerStr c
     | none => false)

/-- An item with its `active` class set to the filtering outcome. -/
def filterApply (selectedValue : String) (it : Item) : Item :=
  { it with active := filterShown selectedValue it }

/-- The show/hide outcome of the articles loop: as `filterShown`, except that
its truthiness guard additionally rejects an empty category attribute. -/
def articlesShown (selectedValue : String) (it : Item) : Bool :=
  selectedValue == "all" ||
    (match it.category with
     | some c => (c != "") && (selectedValue == lowerStr c)
     | none => false)

/-- An item with its `active` class set to the articles filtering outcome. -/
def articlesApply (selectedValue : String) (it : Item) : Item :=
  { it with active := articlesShown selectedValue it }

/-- Per-section filter-button state: the `active` class of each filter button
of the section, in document order, plus the module-level last-clicked-button
variable (`lastClickedBtnPortfolio` / `lastClickedBtnArticles`) as an index. -/
structure BtnSection where
  btnActive : List Bool
  lastClicked : Option Nat
deriving DecidableEq, Repr

/-- Click handler of a filter button (script.js lines 117-147), restricted to
its effect on the button classes: remove `active` from the last clicked button
(when one is recorded), add `active` to the clicked one, record it. -/
def clickFilterBtn (i : Nat) (s : BtnSection) : BtnSection :=
  let cleared :=
    match s.lastClicked with
    | some j => s.btnActive.set j false
    | none => s.btnActive
  { btnActive := cleared.set i true, lastClicked := some i }

/-- Modelled from the spec: the section markup (index.html, which is not under
src/) marks each section's first filter control active at startup; the
DOMContentLoaded handler of script.js then stores that first button in the
module-level last-clicked variable. -/
def initialBtnSection (n : Nat) : BtnSection :=
  { btnActive := (List.range n).map (fun k => k == 0)
    lastClicked := if n = 0 then none else some 0 }

/-- The button state reached from startup by a sequence of button clicks. -/
def runClicks (n : Nat) (clicks : List Nat) : BtnSection :=
  clicks.foldl (fun s i => clickFilterBtn i s) (initialBtnSection n)

/-- Number of entries carrying the `active` class. -/
def countActive (l : List Bool) : Nat := (l.filter id).length

/-- Page-router state: the `data-page` sections with their `active` class, the
navigation links' `active` classes (paired with the pages by index, exactly as
the loop of `setActivePage` pairs them), the sessionStorage key `currentPage`,
and the module-level `currentPage` variable. -/
structure Site where
  pages : List (String × Bool)
  navActive : List Bool
  storedPage : Option String
  currentPage : String
deriving DecidableEq, Repr

/-- The loop of `setActivePage` (script.js lines 225-235) over pages and
navigation links. Returns the rewritten lists plus whether any page matched
(the branch that assigns `currentPage` and sessionStorage ran). `none` models
the TypeError raised when the loop runs past the end of `navigationLinks`. -/
def setActivePageAux (pageName : String) :
    List (String × Bool) → List Bool → Option (List (String × Bool) × List Bool × Bool)
  | [], navs => some ([], navs, false)
  | _ :: _, [] => none
  | (pid, _) :: ps, _ :: ns =>
    (setActivePageAux pageName ps ns).map fun r =>
      ((pid, pageName == pid) :: r.1, (pageName == pid) :: r.2.1, ((pageName == pid) || r.2.2))

/-- `setActivePage` of script.js (lines 224-236). -/
def setActivePage (pageName : String) (s : Site) : Option Site :=
  (setActivePageAux pageName s.pages s.navActive).map fun r =>
    { pages := r.1
      navActive := r.2.1
      storedPage := if r.2.2 then some pageName else s.storedPage
      currentPage := if r.2.2 then pageName else s.currentPage }

/-- What each blog-initialization trigger observes in the document: whether the
`[data-page="blog"]` section exists and carries `active`, and whether the
`.articles-list` container is present. -/
structure BlogEnv where
  blogSectionActive : Bool
  containerPresent : Bool
deriving DecidableEq, Repr

/-- Observable state of the blog bootstrap: whether `globalBlogManager` has
been constructed, its `initialized` flag, and how many times `loadBlogPosts`
has rendered the catalog listing (the effect that must happen at most once). -/
structure BlogState where
  created : Bool
  initialized : Bool
  loadCount : Nat
deriving DecidableEq, Repr

/-- `initBlogManager` of blog-simple.js (lines 207-222): construct the manager
if absent, then, when the blog section is active and the manager is not yet
initialized, run `init()`, which bails out when the articles container is
missing and otherwise renders the listing and sets `initialized`. -/
def initBlogManager (e : BlogEnv) (s : BlogState) : BlogState :=
  let s1 := if s.created then s
            else { created := true, initialized := false, loadCount := s.loadCount }
  if e.blogSectionActive && !s1.initialized then
    if e.containerPresent then
      { s1 with initialized := true, loadCount := s1.loadCount + 1 }
    else s1
  else s1

/-- The three independent triggers wired by the bootstrap of blog-simple.js
(lines 247-271): the initial deferred check, the check after each navigation
click, and the periodic recheck (which is additionally guarded by
`globalBlogManager && !globalBlogManager.initialized`). Each carries what it
observes in the document at the moment it fires. -/
inductive BlogTrigger where
  | deferredCheck (e : BlogEnv)
  | navClick (e : BlogEnv)
  | periodicCheck (e : BlogEnv)
deriving DecidableEq, Repr

/-- Effect of one trigger firing. -/
def runTrigger (t : BlogTrigger) (s : BlogState) : BlogState :=
  match t with
  | .deferredCheck e => initBlogManager e s
  | .navClick e => initBlogManager e s
  | .periodicCheck e => if s.created && !s.initialized then initBlogManager e s else s

/-- State before any trigger has fired. -/
def blogStart : BlogState := { created := false, initialized := false, loadCount := 0 }

/-- The state reached by an arbitrary interleaving of triggers; execution is
single threaded, so an interleaving is a sequence. -/
def runTriggers (ts : List BlogTrigger) : BlogState :=
  ts.foldl (fun s t => runTrigger t s) blogStart

/-- Modal lifecycle state: whether the overlay subtree is attached to
`document.body` and whether the document-level `handleEscape` keydown listener
is registered. -/
structure ModalState where
  attached : Bool
  keydownRegistered : Bool
deriving DecidableEq, Repr

/-- State right after `showModal` (blog-simple.js lines 136-184): the overlay
has been appended to the body and `handleEscape` registered on the document. -/
def showModalState : ModalState := { attached := true, keydownRegistered := true }

/-- `closeModal` (blog-simple.js lines 157-160): `document.body.removeChild(modal)`,
which throws (`Except.error`) when the overlay is no longer a child of the
body. It does not touch the keydown listener. -/
def closeModal (s : ModalState) : Except Unit ModalState :=
  if s.attached then Except.ok { s with attached := false }
  else Except.error ()

/-- Clicking the explicit close control runs `closeModal` and nothing else. -/
def clickCloseBtn (s : ModalState) : Except Unit ModalState := closeModal s

/-- A click on the backdrop outside the content box runs `closeModal` and
nothing else. -/
def clickBackdrop (s : ModalState) : Except Unit ModalState := closeModal s

/-- Pressing Escape: when `handleEscape` is still registered it first runs
`closeModal` and only afterwards unregisters itself; when `closeModal` throws,
the `removeEventListener` line is never reached, so the listener stays
registered. When the listener is gone the key press does nothing. -/
def pressEscape (s : ModalState) : Except Unit ModalState :=
  if s.keydownRegistered then
    match closeModal s with
    | Except.ok s2 => Except.ok { s2 with keydownRegistered := false }
    | Except.error e => Except.error e
  else Except.ok s

/-- The three-dash frontmatter marker searched for by `openPost`. -/
def dash3 : List Char := ['-', '-', '-']

/-- Whether `needle` occurs at the head of `hay`. -/
def startsWithList : List Char → List Char → Bool
  | _, [] => true
  | [], _ :: _ => false
  | a :: as, b :: bs => a == b && startsWithList as bs

/-- `String.prototype.indexOf(needle, i)` on the tail of the text: the least
absolute position, counted from `i`, at which `needle` occurs in `hay`
(`hay` being the text with its first `i` characters removed). -/
def findSubFrom (needle : List Char) : List Char → Nat → Option Nat
  | [], i => if startsWithList [] needle then some i else none
  | c :: rest, i =>
    if startsWithList (c :: rest) needle then some i
    else findSubFrom needle rest (i + 1)

/-- `String.prototype.trim()`: whitespace removed from both ends. -/
def trimChars (cs : List Char) : List Char :=
  ((cs.dropWhile Char.isWhitespace).reverse.dropWhile Char.isWhitespace).reverse

/-- The frontmatter removal of `openPost` (blog-simple.js lines 84-89) on the
character sequence of the body: when the text begins with `---`, search for
the next occurrence of the `---` substring from offset 3; when found at
position `i`, keep `substring(i + 3)` trimmed, otherwise keep the text as is. -/
def stripFrontmatterChars (cs : List Char) : List Char :=
  if startsWithList cs dash3 then
    match findSubFrom dash3 (cs.drop 3) 3 with
    | some i => trimChars (cs.drop (i + 3))
    | none => cs
  else cs

/-- String-level wrapper of the frontmatter removal. -/
def stripFrontmatter (s : String) : String :=
  String.mk (stripFrontmatterChars s.toList)

/-- One catalog entry of `SimpleBlogManager.blogPosts`. -/
structure BlogPost where
  title : String
  description : String
  date : String
  readTime : String
  category : String
  slug : String
  file : String
  image : String
deriving DecidableEq, Repr

/-- The fixed article catalog defined in the constructor of
`SimpleBlogManager` (blog-simple.js lines 4-15). -/
def blogPosts : List BlogPost :=
  [{ title := "AMD GPU Ring Buffer Architecture"
     description := "Deep dive into AMD GPU driver ring buffer mechanism"
     date := "January 2025"
     readTime := "25 min read"
     category := "GPU Architecture"
     slug := "ring_buffer"
     file := "blog/ring_buffer.md"
     image := "./assets/images/ring_buffer.png" }]

/-- Outcome of `await fetch(post.file)` followed by `response.text()`: either
the promise rejected (network failure, carrying the error message) or a
response arrived with its `ok` flag and body text. -/
inductive FetchOutcome where
  | networkError (msg : String)
  | response (ok : Bool) (body : String)
deriving DecidableEq, Repr

/-- Arguments of the one `showModal(title, content)` call `openPost` resolves
with. -/
structure ModalCall where
  title : String
  content : String
deriving DecidableEq, Repr

/-- The inline error markup built by the catch block of `openPost`
(blog-simple.js line 132). -/
def errorHtml (msg : String) : String :=
  "<p style=\"color: red;\">Error loading blog post: " ++ msg ++ "</p>"

/-- The try block of `openPost` (blog-simple.js lines 72-129): fetch, check
`response.ok`, strip the frontmatter, and convert through the pluggable
engine `parse` (`marked.parse` with the custom renderer) when it is present;
every failure is an `Except.error` carrying the message of the thrown Error. -/
def openPostTry (f : FetchOutcome) (markedAvailable : Bool)
    (parse : String → String) (post : BlogPost) : Except String ModalCall :=
  match f with
  | FetchOutcome.networkError msg => Except.error msg
  | FetchOutcome.response ok body =>
    if ok then
      let content := stripFrontmatter body
      if markedAvailable then Except.ok ⟨post.title, parse content⟩
      else Except.error "Marked.js not available"
    else Except.error ("Failed to load " ++ post.file)

/-- `openPost` with its catch block (blog-simple.js lines 71-134): any failure
of the try block resolves into a modal displaying the inline error markup;
no exception escapes. -/
def openPost (f : FetchOutcome) (markedAvailable : Bool)
    (parse : String → String) (post : BlogPost) : ModalCall :=
  match openPostTry f markedAvailable parse post with
  | Except.ok r => r
  | Except.error msg => ⟨post.title, errorHtml msg⟩

/-- The lines of a character sequence, split at every newline. -/
def splitOnNl : List Char → List (List Char)
  | [] => [[]]
  | c :: rest =>
    let r := splitOnNl rest
    if c = '\n' then [] :: r
    else
      match r with
      | [] => [[c]]
      | h :: t => (c :: h) :: t

/-- Modelled from the spec: the conversion engine (the external `marked`
library, not part of the repository) renders an ATX heading line of the
markdown source as a heading; this extracts the text of the first first-level
heading line, i.e. the text of the first heading of the rendered output. -/
def firstHeadingText (s : String) : Option String :=
  (splitOnNl s.toList).findSome? fun line =>
    match line with
    | '#' :: ' ' :: rest => some (String.mk rest)
    | _ => none

/-- A concrete two-page site used to evaluate the router at concrete inputs. -/
def demoSite : Site :=
  { pages := [("about", true), ("resume", false)]
    navActive := [true, false]
    storedPage := some "about"
    currentPage := "about" }

/-
Theorems.
-/

/-- Preserved across the blog-initialization triggers: the listing has been
rendered at most once, and not at all while the manager is uninitialized or
not yet constructed. -/
def BlogInv (s : BlogState) : Prop :=
  s.loadCount ≤ 1 ∧ (s.initialized = false → s.loadCount = 0)
    ∧ (s.created = false → s.loadCount = 0)

/-- Preserved across filter-button clicks: every button carrying the `active`
class is the one recorded in the module-level last-clicked variable. -/
def BtnInv (s : BtnSection) : Prop :=
  ∀ k, s.btnActive.get? k = some true → s.lastClicked = some k

theorem initBlogManager_inv (e : BlogEnv) (s : BlogState) (h : BlogInv s) :
    BlogInv (initBlogManager e s) := by
  obtain ⟨ec, ep⟩ := e
  obtain ⟨c, i, n⟩ := s
  simp only [BlogInv] at h ⊢
  cases c <;> cases i <;> cases ec <;> cases ep <;>
    simp_all [initBlogManager]

theorem runTrigger_inv (t : BlogTrigger) (s : BlogState) (h : BlogInv s) :
    BlogInv (runTrigger t s) := by
  cases t with
  | deferredCheck e => exact initBlogManager_inv e s h
  | navClick e => exact initBlogManager_inv e s h
  | periodicCheck e =>
    unfold runTrigger
    by_cases hg : (s.created && !s.initialized) = true
    · simp only [hg, if_true]; exact initBlogManager_inv e s h
    · simp only [hg, if_false]; exact h

theorem foldl_trigger_inv (ts : List BlogTrigger) (s : BlogState) (h : BlogInv s) :
    BlogInv (ts.foldl (fun s t => runTrigger t s) s) := by
  induction ts generalizing s with
  | nil => exact h
  | cons t ts ih => exact ih _ (runTrigger_inv t s h)

theorem runTriggers_inv (ts : List BlogTrigger) : BlogInv (runTriggers ts) :=
  foldl_trigger_inv ts blogStart (by simp [BlogInv, blogStart])

/-- C9: across every interleaving of the deferred check, the navigation-click
checks and the periodic rechecks, catalog-listing initialization takes effect
at most once; once the manager exists and its initialized flag is set, every
trigger is a no-op; and an attempt that finds the blog section active and the
container present sets the flag and renders the listing. -/
theorem c9_init_at_most_once :
    (∀ ts : List BlogTrigger, (runTriggers ts).loadCount ≤ 1)
    ∧ (∀ (t : BlogTrigger) (s : BlogState),
        s.created = true → s.initialized = true → runTrigger t s = s)
    ∧ (∀ (e : BlogEnv) (s : BlogState),
        e.blogSectionActive = true → e.containerPresent = true →
        s.initialized = false →
        (initBlogManager e s).initialized = true
          ∧ (initBlogManager e s).loadCount = s.loadCount + 1) := by
  refine ⟨fun ts => (runTriggers_inv ts).1, ?_, ?_⟩
  · intro t s hc hi
    obtain ⟨c, i, n⟩ := s
    simp only at hc hi
    subst hc
    subst hi
    cases t <;> simp [runTrigger, initBlogManager]
  · intro e s ha hp hi
    obtain ⟨ec, ep⟩ := e
    obtain ⟨c, i, n⟩ := s
    simp only at ha hp hi
    subst ha
    subst hp
    subst hi
    cases c <;> simp [initBlogManager]

/-- C9 witness: a trigger firing on an already-initialized manager changes
nothing, and an attempt with the blog section active and the container present
initializes. -/
theorem c9_init_at_most_once_witness :
    runTrigger (BlogTrigger.navClick ⟨true, true⟩)
        { created := true, initialized := true, loadCount := 1 }
      = { created := true, initialized := true, loadCount := 1 }
    ∧ (initBlogManager ⟨true, true⟩ blogStart).initialized = true := by
  exact ⟨c9_init_at_most_once.2.1 _ _ rfl rfl,
    (c9_init_at_most_once.2.2 ⟨true, true⟩ blogStart rfl rfl rfl).1⟩

/-- C1: evaluating the modal dismissal paths. Dismissal via the close control
or the backdrop removes the overlay but leaves the document keydown listener
registered; a later Escape press then runs closeModal on the detached overlay
and throws, as does a repeated close trigger, so those paths are neither
listener-releasing nor idempotent. Only the Escape-first path also
unregisters the listener. -/
theorem c1_modal_teardown_eval :
    clickCloseBtn showModalState
      = Except.ok { attached := false, keydownRegistered := true }
    ∧ clickBackdrop showModalState
      = Except.ok { attached := false, keydownRegistered := true }
    ∧ pressEscape { attached := false, keydownRegistered := true } = Except.error ()
    ∧ clickCloseBtn { attached := false, keydownRegistered := true } = Except.error ()
    ∧ pressEscape showModalState
      = Except.ok { attached := false, keydownRegistered := false } := by
  exact ⟨rfl, rfl, rfl, rfl, rfl⟩

/-- C4: at the unknown page id "blog2" the router deactivates every page and
every navigation control and keeps the stored id unchanged, leaving no page
active; nothing falls back to a default page. -/
theorem c4_unknown_page_eval :
    setActivePage "blog2" demoSite
      = some { pages := [("about", false), ("resume", false)]
               navActive := [false, false]
               storedPage := some "about"
               currentPage := "about" }
    ∧ countActive (demoSite.pages.map Prod.snd) = 1
    ∧ countActive [false, false] = 0 := by
  exact ⟨by decide, rfl, rfl⟩

/-- C6: `openPost` never throws past its boundary: for every fetch outcome,
engine availability, conversion engine and catalog entry it resolves into one
modal call showing either the converted rich text (successful retrieval with
the engine present) or the inline error markup. -/
theorem c6_open_never_throws (f : FetchOutcome) (markedAvailable : Bool)
    (parse : String → String) (post : BlogPost) :
    (∃ body, f = FetchOutcome.response true body ∧ markedAvailable = true ∧
        openPost f markedAvailable parse post
          = ⟨post.title, parse (stripFrontmatter body)⟩)
    ∨ (∃ msg, openPost f markedAvailable parse post = ⟨post.title, errorHtml msg⟩) := by
  cases f with
  | networkError msg => exact Or.inr ⟨msg, rfl⟩
  | response ok body =>
    cases ok with
    | false => exact Or.inr ⟨"Failed to load " ++ post.file, rfl⟩
    | true =>
      cases markedAvailable with
      | false => exact Or.inr ⟨"Marked.js not available", rfl⟩
      | true => exact Or.inl ⟨body, rfl, rfl, rfl⟩

/-- C2 counterexample: with category "A" and an articles item whose attribute
is "a" — equal to "A" up to case — the filter hides the item: the code
lowercases only the attribute, never the selected category, so the comparison
is not case-insensitive in the category argument. -/
theorem c2_case_counterexample :
    (lowerStr "a" == lowerStr "A") = true
    ∧ articlesFilterFunc "A"
        [(SiteSection.articles, { category := some "a", active := true })]
      = ([(SiteSection.articles, { category := some "a", active := false })], false) := by
  exact ⟨by decide, by decide⟩

/-- C5 counterexample: a body that begins with a marker line and has a second
marker line later, but whose metadata value contains the three-dash substring.
The code cuts at that inner occurrence instead of at the second marker line,
so the remainder differs from "# Heading" and still holds a literal --- line. -/
theorem c5_inner_dashes_counterexample :
    stripFrontmatter "---\ntitle: a---b\n---\n# Heading" = "b\n---\n# Heading"
    ∧ "b\n---\n# Heading" ≠ "# Heading"
    ∧ ((splitOnNl "b\n---\n# Heading".toList).contains dash3) = true := by
  exact ⟨by decide, by decide, by decide⟩

theorem articlesStep_eq (selectedValue : String) (it : Item) :
    articlesStep selectedValue it = articlesApply selectedValue it := by
  unfold articlesStep articlesApply articlesShown
  by_cases hall : selectedValue = "all"
  · subst hall
    simp
  · have hallb : (selectedValue == "all") = false := by simp [hall]
    simp only [if_neg hall, hallb, Bool.false_or]
    cases hcat : it.category with
    | none => simp
    | some c =>
      by_cases hc : c = ""
      · have hcb : (c != "") = false := by simp [hc]
        simp [hc, hcb]
      · have hcb : (c != "") = true := by simp [hc]
        simp only [if_neg hc, hcb, Bool.true_and]
        by_cases hm : selectedValue = lowerStr c
        · have hmb : (selectedValue == lowerStr c) = true := by simp [hm]
          simp [hm, hmb]
        · have hmb : (selectedValue == lowerStr c) = false := by simp [hm]
          have h1 : ¬(selectedValue = "edge ai" ∧ lowerStr c = "edge ai") := by
            rintro ⟨ha, hb⟩
            exact hm (ha.trans hb.symm)
          have h2 : ¬(selectedValue = "linux kernel" ∧ lowerStr c = "linux kernel") := by
            rintro ⟨ha, hb⟩
            exact hm (ha.trans hb.symm)
          have h3 : ¬(selectedValue = "gpu programming" ∧ lowerStr c = "gpu programming") := by
            rintro ⟨ha, hb⟩
            exact hm (ha.trans hb.symm)
          simp [hm, hmb, h1, h2, h3]

theorem portfolioStep_eq (selectedValue : String) (it : Item)
    (h : it.category.isSome = true) :
    portfolioStep selectedValue it = some (filterApply selectedValue it) := by
  unfold portfolioStep filterApply filterShown
  by_cases hall : selectedValue = "all"
  · subst hall
    simp
  · have hallb : (selectedValue == "all") = false := by simp [hall]
    simp only [if_neg hall, hallb, Bool.false_or]
    cases hcat : it.category with
    | none =>
      rw [hcat] at h
      simp at h
    | some c =>
      by_cases hm : selectedValue = lowerStr c
      · have hmb : (selectedValue == lowerStr c) = true := by simp [hm]
        simp [hm, hmb]
      · have hmb : (selectedValue == lowerStr c) = false := by simp [hm]
        simp [hm, hmb]

theorem applyFilterDom_eq_map_of (sec : SiteSection) (step : Item → Option Item)
    (f : Item → Item) (dom : List (SiteSection × Item))
    (h : ∀ p ∈ dom, p.1 = sec → step p.2 = some (f p.2)) :
    applyFilterDom sec step dom
      = (dom.map (fun p => if p.1 = sec then (p.1, f p.2) else p), false) := by
  induction dom with
  | nil => rfl
  | cons p rest ih =>
    obtain ⟨t, it⟩ := p
    have ihr := ih (fun q hq hq2 => h q (List.mem_cons_of_mem _ hq) hq2)
    by_cases ht : t = sec
    · have hstep := h (t, it) (List.mem_cons_self _ _) ht
      simp only [applyFilterDom, ht, if_true, hstep, ihr, List.map_cons]
    · simp only [applyFilterDom, ht, if_false, ihr, List.map_cons]

theorem applyFilterDom_frame (sec : SiteSection) (step : Item → Option Item)
    (dom : List (SiteSection × Item)) (i : Nat) (t : SiteSection) (it : Item)
    (hget : dom.get? i = some (t, it)) (hne : t ≠ sec) :
    (applyFilterDom sec step dom).1.get? i = some (t, it) := by
  induction dom generalizing i with
  | nil => simp at hget
  | cons p rest ih =>
    obtain ⟨t0, it0⟩ := p
    by_cases ht : t0 = sec
    · cases hstep : step it0 with
      | none =>
        simp only [applyFilterDom, ht, if_true, hstep]
        rw [ht] at hget
        exact hget
      | some it2 =>
        simp only [applyFilterDom, ht, if_true, hstep]
        cases i with
        | zero =>
          simp only [List.get?_cons_zero, Option.some.injEq, Prod.mk.injEq] at hget
          exact absurd (hget.1 ▸ ht) hne
        | succ n =>
          simp only [List.get?_cons_succ] at hget ⊢
          exact ih n hget
    · simp only [applyFilterDom, ht, if_false]
      cases i with
      | zero =>
        simpa using hget
      | succ n =>
        simp only [List.get?_cons_succ] at hget ⊢
        exact ih n hget

/-- C2 (amended): with category "all" every item of the filtered section is
shown. With any other category, an articles item is shown iff it carries a
non-empty category attribute whose lowercased value equals the selected
category verbatim (the truthiness guard rejects a missing and an empty
attribute alike; every call site lowercases the selection before passing it,
so the attribute side, and only that side, is compared case-insensitively);
a portfolio item is shown iff its category attribute lowercased equals the
selected category verbatim, the portfolio loop having no truthiness guard but
requiring every portfolio item to carry a category attribute, else it throws.
Every non-matching item of the filtered section is hidden. -/
theorem c2_filter_amended (selectedValue : String) (dom : List (SiteSection × Item)) :
    articlesFilterFunc selectedValue dom
      = (dom.map (fun p =>
            if p.1 = SiteSection.articles
            then (p.1, articlesApply selectedValue p.2) else p),
         false)
    ∧ ((∀ p ∈ dom, p.1 = SiteSection.portfolio → p.2.category.isSome = true) →
        portfolioFilterFunc selectedValue dom
          = (dom.map (fun p =>
                if p.1 = SiteSection.portfolio
                then (p.1, filterApply selectedValue p.2) else p),
             false)) := by
  constructor
  · unfold articlesFilterFunc
    exact applyFilterDom_eq_map_of SiteSection.articles _ (articlesApply selectedValue) dom
      (fun p _ _ => congrArg some (articlesStep_eq selectedValue p.2))
  · intro h
    unfold portfolioFilterFunc
    exact applyFilterDom_eq_map_of SiteSection.portfolio _ (filterApply selectedValue) dom
      (fun p hp hsec => portfolioStep_eq selectedValue p.2 (h p hp hsec))

/-- C2 witness: filtering the portfolio for "design" shows the portfolio item
whose attribute is "Design" and leaves the articles item alone; filtering the
articles for the empty category hides even an item whose attribute is the
empty string, since the truthiness guard rejects it. -/
theorem c2_filter_amended_witness :
    portfolioFilterFunc "design"
        [(SiteSection.portfolio, { category := some "Design", active := false }),
         (SiteSection.articles, { category := some "Design", active := false }),
         (SiteSection.portfolio, { category := some "Embedded", active := true })]
      = ([(SiteSection.portfolio, { category := some "Design", active := true }),
          (SiteSection.articles, { category := some "Design", active := false }),
          (SiteSection.portfolio, { category := some "Embedded", active := false })],
         false)
    ∧ articlesFilterFunc ""
        [(SiteSection.articles, { category := some "", active := true })]
      = ([(SiteSection.articles, { category := some "", active := false })], false) := by
  constructor
  · have h := (c2_filter_amended "design"
      [(SiteSection.portfolio, { category := some "Design", active := false }),
       (SiteSection.articles, { category := some "Design", active := false }),
       (SiteSection.portfolio, { category := some "Embedded", active := true })]).2
      (by decide)
    rw [h]
    decide
  · have h := (c2_filter_amended ""
      [(SiteSection.articles, { category := some "", active := true })]).1
    rw [h]
    decide

/-- C7: a filter call evaluates and rewrites only the items of its own
section: every item of any other section keeps exactly its previous state, on
both the portfolio and the articles filter, whether or not the loop throws. -/
theorem c7_filter_scoped (selectedValue : String) (dom : List (SiteSection × Item))
    (i : Nat) (t : SiteSection) (it : Item) (hget : dom.get? i = some (t, it)) :
    (t ≠ SiteSection.portfolio →
      (portfolioFilterFunc selectedValue dom).1.get? i = some (t, it))
    ∧ (t ≠ SiteSection.articles →
      (articlesFilterFunc selectedValue dom).1.get? i = some (t, it)) :=
  ⟨fun h => applyFilterDom_frame _ _ dom i t it hget h,
   fun h => applyFilterDom_frame _ _ dom i t it hget h⟩

/-- C7 witness: filtering the portfolio leaves an articles item untouched. -/
theorem c7_filter_scoped_witness :
    (portfolioFilterFunc "web"
        [(SiteSection.portfolio, { category := none, active := true }),
         (SiteSection.articles, { category := some "Edge AI", active := true })]).1.get? 1
      = some (SiteSection.articles, { category := some "Edge AI", active := true }) :=
  (c7_filter_scoped "web"
    [(SiteSection.portfolio, { category := none, active := true }),
     (SiteSection.articles, { category := some "Edge AI", active := true })]
    1 SiteSection.articles { category := some "Edge AI", active := true }
    (by decide)).1 (by decide)

/-- C10: an item carrying no category attribute is treated as non-matching
and hidden by the articles filter for every non-"all" category, while the
portfolio loop body reaches its error branch on such an item (the unguarded
dataset.category dereference throws, aborting the loop); when every portfolio
item carries a category attribute the portfolio loop never throws. -/
theorem c10_missing_category (selectedValue : String) (it : Item)
    (hsel : selectedValue ≠ "all") (hcat : it.category = none) :
    articlesStep selectedValue it = { it with active := false }
    ∧ portfolioStep selectedValue it = none
    ∧ portfolioFilterFunc selectedValue [(SiteSection.portfolio, it)]
        = ([(SiteSection.portfolio, it)], true)
    ∧ (∀ dom : List (SiteSection × Item),
        (∀ p ∈ dom, p.1 = SiteSection.portfolio → p.2.category.isSome = true) →
        (portfolioFilterFunc selectedValue dom).2 = false) := by
  have hstep : portfolioStep selectedValue it = none := by
    unfold portfolioStep
    simp [hsel, hcat]
  refine ⟨?_, hstep, ?_, ?_⟩
  · rw [articlesStep_eq]
    have hb : articlesShown selectedValue it = false := by
      unfold articlesShown
      simp [hsel, hcat]
    unfold articlesApply
    rw [hb]
  · unfold portfolioFilterFunc
    simp [applyFilterDom, hstep]
  · intro dom h
    unfold portfolioFilterFunc
    rw [applyFilterDom_eq_map_of SiteSection.portfolio _ (filterApply selectedValue) dom
      (fun p hp hsec => portfolioStep_eq selectedValue p.2 (h p hp hsec))]

/-- C10 witness: the item without a category attribute is hidden by the
articles step, crashes the portfolio loop, and an all-attributed portfolio
never crashes. -/
theorem c10_missing_category_witness :
    articlesStep "gpu architecture" { category := none, active := true }
      = { category := none, active := false }
    ∧ portfolioStep "gpu architecture" { category := none, active := true } = none
    ∧ portfolioFilterFunc "gpu architecture"
        [(SiteSection.portfolio, { category := none, active := true })]
      = ([(SiteSection.portfolio, { category := none, active := true })], true)
    ∧ (portfolioFilterFunc "gpu architecture"
        [(SiteSection.portfolio, { category := some "GPU Architecture", active := false })]).2
      = false := by
  have h := c10_missing_category "gpu architecture" { category := none, active := true }
    (by decide) rfl
  exact ⟨h.1, h.2.1, h.2.2.1, h.2.2.2 _ (by decide)⟩

theorem setActivePageAux_eq (pageName : String) (ps : List (String × Bool)) (ns : List Bool)
    (hlen : ns.length = ps.length) :
    setActivePageAux pageName ps ns
      = some (ps.map (fun p => (p.1, pageName == p.1)),
              ps.map (fun p => (pageName == p.1)),
              ps.any (fun p => pageName == p.1)) := by
  induction ps generalizing ns with
  | nil =>
    cases ns with
    | nil => rfl
    | cons x xs => simp at hlen
  | cons p ps ih =>
    obtain ⟨pid, b⟩ := p
    cases ns with
    | nil => simp at hlen
    | cons x xs =>
      simp only [List.length_cons, Nat.add_right_cancel_iff] at hlen
      simp only [setActivePageAux, ih xs hlen, Option.map_some', List.map_cons, List.any_cons]

theorem countActive_beq_map (pageName : String) (ps : List (String × Bool))
    (hnodup : (ps.map Prod.fst).Nodup) (hmem : pageName ∈ ps.map Prod.fst) :
    countActive (ps.map (fun p => (pageName == p.1))) = 1 := by
  induction ps with
  | nil => simp at hmem
  | cons p ps ih =>
    simp only [List.map_cons, List.nodup_cons] at hnodup
    simp only [List.map_cons, List.mem_cons] at hmem
    by_cases he : pageName = p.1
    · have hz : ((ps.map (fun q => (pageName == q.1))).filter id) = [] := by
        rw [List.filter_eq_nil_iff]
        intro x hx
        rw [List.mem_map] at hx
        obtain ⟨q, hq, hbq⟩ := hx
        have hq1 : q.1 ∈ ps.map Prod.fst := List.mem_map_of_mem _ hq
        have hne : pageName ≠ q.1 := by
          intro habs
          exact hnodup.1 (by rw [← he, habs]; exact hq1)
        rw [← hbq]
        simp [hne]
      have hb : (pageName == p.1) = true := by simp [he]
      unfold countActive
      simp only [List.map_cons, List.filter_cons, hb, id, hz]
      rfl
    · have hmem' : pageName ∈ ps.map Prod.fst := hmem.resolve_left he
      have hb : (pageName == p.1) = false := by simp [he]
      have hc := ih hnodup.2 hmem'
      unfold countActive at hc ⊢
      simp only [List.map_cons, List.filter_cons, hb, id]
      exact hc

/-- C3: for a known page id (under the markup well-formedness the page relies
on: as many navigation links as pages and pairwise distinct page ids),
`setActivePage` activates exactly the page carrying that id and exactly the
navigation control paired with it, deactivates all the others, and persists
the id to sessionStorage and the module-level current-page variable. -/
theorem c3_setActivePage (pageName : String) (s : Site)
    (hlen : s.navActive.length = s.pages.length)
    (hnodup : (s.pages.map Prod.fst).Nodup)
    (hmem : pageName ∈ s.pages.map Prod.fst) :
    setActivePage pageName s
      = some { pages := s.pages.map (fun p => (p.1, pageName == p.1))
               navActive := s.pages.map (fun p => (pageName == p.1))
               storedPage := some pageName
               currentPage := pageName }
    ∧ countActive ((s.pages.map (fun p => (p.1, pageName == p.1))).map Prod.snd) = 1
    ∧ countActive (s.pages.map (fun p => (pageName == p.1))) = 1 := by
  have hfound : s.pages.any (fun p => pageName == p.1) = true := by
    rw [List.any_eq_true]
    rw [List.mem_map] at hmem
    obtain ⟨p, hp, hp1⟩ := hmem
    exact ⟨p, hp, by simp [hp1]⟩
  have hcnt := countActive_beq_map pageName s.pages hnodup hmem
  refine ⟨?_, ?_, hcnt⟩
  · unfold setActivePage
    rw [setActivePageAux_eq pageName s.pages s.navActive hlen]
    simp [hfound]
  · rw [List.map_map]
    exact hcnt

/-- C3 witness: activating "resume" on the two-page demo site. -/
theorem c3_setActivePage_witness :
    setActivePage "resume" demoSite
      = some { pages := demoSite.pages.map (fun p => (p.1, "resume" == p.1))
               navActive := demoSite.pages.map (fun p => ("resume" == p.1))
               storedPage := some "resume"
               currentPage := "resume" }
    ∧ countActive ((demoSite.pages.map (fun p => (p.1, "resume" == p.1))).map Prod.snd) = 1
    ∧ countActive (demoSite.pages.map (fun p => ("resume" == p.1))) = 1 :=
  c3_setActivePage "resume" demoSite (by decide) (by decide) (by decide)

theorem clickFilterBtn_length (i : Nat) (s : BtnSection) :
    (clickFilterBtn i s).btnActive.length = s.btnActive.length := by
  unfold clickFilterBtn
  cases s.lastClicked <;> simp [List.length_set]

theorem foldl_clicks_length (clicks : List Nat) (s : BtnSection) :
    (clicks.foldl (fun s i => clickFilterBtn i s) s).btnActive.length
      = s.btnActive.length := by
  induction clicks generalizing s with
  | nil => rfl
  | cons c cs ih => rw [List.foldl_cons, ih, clickFilterBtn_length]

theorem runClicks_length (n : Nat) (clicks : List Nat) :
    (runClicks n clicks).btnActive.length = n := by
  unfold runClicks
  rw [foldl_clicks_length]
  unfold initialBtnSection
  simp

theorem clickFilterBtn_inv (i : Nat) (s : BtnSection) (h : BtnInv s) :
    BtnInv (clickFilterBtn i s) := by
  intro k hk
  unfold clickFilterBtn at hk ⊢
  by_cases hki : k = i
  · subst hki
    rfl
  · exfalso
    rw [List.get?_set_ne _ _ (Ne.symm hki)] at hk
    cases hl : s.lastClicked with
    | none =>
      rw [hl] at hk
      have hlast := h k hk
      rw [hl] at hlast
      exact Option.noConfusion hlast
    | some j =>
      rw [hl] at hk
      by_cases hkj : k = j
      · subst hkj
        rw [List.get?_set_eq] at hk
        cases hx : s.btnActive.get? k <;> rw [hx] at hk <;> simp at hk
      · rw [List.get?_set_ne _ _ (Ne.symm hkj)] at hk
        have hlast := h k hk
        rw [hl] at hlast
        exact hkj (Option.some.inj hlast).symm

theorem foldl_clicks_inv (clicks : List Nat) (s : BtnSection) (h : BtnInv s) :
    BtnInv (clicks.foldl (fun s i => clickFilterBtn i s) s) := by
  induction clicks generalizing s with
  | nil => exact h
  | cons c cs ih => exact ih _ (clickFilterBtn_inv c s h)

theorem initialBtnSection_inv (n : Nat) : BtnInv (initialBtnSection n) := by
  intro k hk
  unfold initialBtnSection at hk ⊢
  rw [List.get?_map] at hk
  cases hr : (List.range n).get? k with
  | none =>
    rw [hr] at hk
    exact Option.noConfusion hk
  | some m =>
    rw [hr] at hk
    simp only [Option.map_some', Option.some.injEq, beq_iff_eq] at hk
    have hkn : k < n := by
      by_contra hge
      rw [List.get?_eq_none.mpr (by simpa using Nat.le_of_not_lt hge)] at hr
      exact Option.noConfusion hr
    rw [List.get?_range hkn] at hr
    have hmk : k = m := Option.some.inj hr
    have hk0 : k = 0 := by omega
    subst hk0
    have hn : ¬(n = 0) := by omega
    simp [hn]

theorem countActive_eq_zero (l : List Bool) (h : ∀ k, l.get? k ≠ some true) :
    countActive l = 0 := by
  induction l with
  | nil => rfl
  | cons b bs ih =>
    have hb : b = false := by
      cases b
      · rfl
      · exact absurd (show (true :: bs).get? 0 = some true from rfl) (h 0)
    subst hb
    unfold countActive at ih ⊢
    simp only [List.filter_cons, id]
    exact ih (fun k => by simpa using h (k + 1))

theorem countActive_le_one (l : List Bool) (m : Nat)
    (h : ∀ k, l.get? k = some true → k = m) : countActive l ≤ 1 := by
  induction l generalizing m with
  | nil => simp [countActive]
  | cons b bs ih =>
    cases b with
    | true =>
      have hz : countActive bs = 0 := countActive_eq_zero bs (fun k hk => by
        have h0 : 0 = m := h 0 (by simp)
        have hk1 : k + 1 = m := h (k + 1) (by simpa using hk)
        omega)
      unfold countActive at hz ⊢
      simp only [List.filter_cons, id]
      simp only [if_true]
      simp [hz]
    | false =>
      have htail := ih (m - 1) (fun k hk => by
        have := h (k + 1) (by simpa using hk)
        omega)
      unfold countActive at htail ⊢
      simpa [List.filter_cons] using htail

theorem clickFilterBtn_pair_get (act : List Bool) (last : Option Nat) (a b j : Nat)
    (hinv : ∀ k, act.get? k = some true → last = some k)
    (hb : b < act.length) (hj : j < act.length) :
    (clickFilterBtn b (clickFilterBtn a ⟨act, last⟩)).btnActive.get? j
      = some (decide (j = b)) := by
  cases last with
  | none =>
    unfold clickFilterBtn
    simp only []
    by_cases hjb : j = b
    · subst hjb
      rw [List.get?_set_eq_of_lt true (by simp [List.length_set, hj])]
      simp
    · rw [List.get?_set_ne _ _ (Ne.symm hjb)]
      by_cases hja : j = a
      · subst hja
        rw [List.get?_set_eq_of_lt false (by simp [List.length_set, hj])]
        simp [hjb]
      · rw [List.get?_set_ne _ _ (Ne.symm hja), List.get?_set_ne _ _ (Ne.symm hja)]
        obtain ⟨x, hx⟩ : ∃ x, act.get? j = some x :=
          ⟨act.get ⟨j, hj⟩, List.get?_eq_get hj⟩
        cases x with
        | true => exact absurd (hinv j hx) (by simp)
        | false =>
          rw [hx]
          simp [hjb]
  | some j0 =>
    unfold clickFilterBtn
    simp only []
    by_cases hjb : j = b
    · subst hjb
      rw [List.get?_set_eq_of_lt true (by simp [List.length_set, hj])]
      simp
    · rw [List.get?_set_ne _ _ (Ne.symm hjb)]
      by_cases hja : j = a
      · subst hja
        rw [List.get?_set_eq_of_lt false (by simp [List.length_set, hj])]
        simp [hjb]
      · rw [List.get?_set_ne _ _ (Ne.symm hja), List.get?_set_ne _ _ (Ne.symm hja)]
        by_cases hjj0 : j = j0
        · subst hjj0
          rw [List.get?_set_eq_of_lt false hj]
          simp [hjb]
        · rw [List.get?_set_ne _ _ (Ne.symm hjj0)]
          obtain ⟨x, hx⟩ : ∃ x, act.get? j = some x :=
            ⟨act.get ⟨j, hj⟩, List.get?_eq_get hj⟩
          cases x with
          | true =>
            have hj0j := hinv j hx
            exact absurd (Option.some.inj hj0j).symm hjj0
          | false =>
            rw [hx]
            simp [hjb]

/-- C8: from startup, after any sequence of filter-button clicks, at most one
filter control of the section carries the active class; and clicking control
a and then control b (both present in the section) leaves exactly b active:
every control's active class afterwards states whether it is b. -/
theorem c8_one_active_button :
    (∀ (n : Nat) (clicks : List Nat), countActive (runClicks n clicks).btnActive ≤ 1)
    ∧ (∀ (n : Nat) (clicks : List Nat) (a b : Nat), a < n → b < n →
        ∀ j, j < n →
          (runClicks n (clicks ++ [a, b])).btnActive.get? j = some (decide (j = b))) := by
  have hinvrun : ∀ (n : Nat) (clicks : List Nat), BtnInv (runClicks n clicks) :=
    fun n clicks => foldl_clicks_inv clicks _ (initialBtnSection_inv n)
  constructor
  · intro n clicks
    have hinv := hinvrun n clicks
    cases hl : (runClicks n clicks).lastClicked with
    | none =>
      have hz := countActive_eq_zero (runClicks n clicks).btnActive (fun k hk => by
        have := hinv k hk
        rw [hl] at this
        exact Option.noConfusion this)
      omega
    | some m =>
      exact countActive_le_one _ m (fun k hk => by
        have := hinv k hk
        rw [hl] at this
        exact (Option.some.inj this).symm)
  · intro n clicks a b ha hb j hj
    have hinv := hinvrun n clicks
    have hlen := runClicks_length n clicks
    have hrun : runClicks n (clicks ++ [a, b])
        = clickFilterBtn b (clickFilterBtn a (runClicks n clicks)) := by
      unfold runClicks
      rw [List.foldl_append]
      rfl
    rw [hrun]
    exact clickFilterBtn_pair_get (runClicks n clicks).btnActive
      (runClicks n clicks).lastClicked a b j (fun k hk => hinv k hk)
      (by omega) (by omega)

/-- C8 witness: in a three-button section, clicking button 2 and then buttons
0 and 1 leaves at most one button active, and exactly button 1 active. -/
theorem c8_one_active_button_witness :
    countActive (runClicks 3 [2, 0]).btnActive ≤ 1
    ∧ (runClicks 3 ([2] ++ [0, 1])).btnActive.get? 0 = some (decide ((0 : Nat) = 1)) :=
  ⟨c8_one_active_button.1 3 [2, 0],
   c8_one_active_button.2 3 [2] 0 1 (by omega) (by omega) 0 (by omega)⟩

theorem startsWithList_nil_true (l : List Char) : startsWithList l [] = true := by
  cases l <;> rfl

theorem startsWithList_dash3_newline (m r : List Char)
    (h : startsWithList m dash3 = false) :
    startsWithList (m ++ '\n' :: r) dash3 = false := by
  have hnl : ('\n' == '-') = false := by decide
  cases m with
  | nil => simp [dash3, startsWithList, hnl]
  | cons a m1 =>
    cases m1 with
    | nil => simp [dash3, startsWithList, hnl]
    | cons b m2 =>
      cases m2 with
      | nil => simp [dash3, startsWithList, hnl]
      | cons c t =>
        simp only [dash3, startsWithList, List.cons_append, startsWithList_nil_true] at h ⊢
        exact h

theorem findSubFrom_none_forall (needle hay : List Char) (i : Nat)
    (h : findSubFrom needle hay i = none) :
    ∀ j, startsWithList (hay.drop j) needle = false := by
  induction hay generalizing i with
  | nil =>
    intro j
    unfold findSubFrom at h
    cases hx : startsWithList [] needle with
    | false => simpa using hx
    | true =>
      rw [hx] at h
      simp at h
  | cons c rest ih =>
    intro j
    unfold findSubFrom at h
    cases hx : startsWithList (c :: rest) needle with
    | true =>
      rw [hx] at h
      simp at h
    | false =>
      rw [hx] at h
      simp only [Bool.false_eq_true, if_false] at h
      cases j with
      | zero => simpa using hx
      | succ k => simpa using ih (i + 1) h k

theorem findSubFrom_append (needle L R : List Char) (i : Nat)
    (h : ∀ j, j < L.length → startsWithList (L.drop j ++ R) needle = false) :
    findSubFrom needle (L ++ R) i = findSubFrom needle R (i + L.length) := by
  induction L generalizing i with
  | nil => simp
  | cons c L1 ih =>
    have h0 : startsWithList (c :: (L1 ++ R)) needle = false := by
      simpa using h 0 (by simp)
    rw [List.cons_append]
    show (if startsWithList (c :: (L1 ++ R)) needle then some i
          else findSubFrom needle (L1 ++ R) (i + 1)) = _
    rw [h0]
    simp only [Bool.false_eq_true, if_false]
    rw [ih (i + 1) (fun j hj => by
      simpa using h (j + 1) (by simp only [List.length_cons]; omega))]
    have harith : i + 1 + L1.length = i + (c :: L1).length := by
      simp only [List.length_cons]
      omega
    rw [harith]

theorem trimChars_newline (cs : List Char) : trimChars ('\n' :: cs) = trimChars cs := by
  unfold trimChars
  rw [List.dropWhile_cons]
  simp [show Char.isWhitespace '\n' = true from by decide]

theorem stripFrontmatterChars_meta (metaC bodyC : List Char)
    (h : findSubFrom dash3 metaC 0 = none) :
    stripFrontmatterChars (dash3 ++ '\n' :: metaC ++ '\n' :: dash3 ++ '\n' :: bodyC)
      = trimChars bodyC := by
  have hnosub : ∀ j, startsWithList (metaC.drop j) dash3 = false :=
    findSubFrom_none_forall dash3 metaC 0 h
  have hstart : startsWithList
      (dash3 ++ '\n' :: metaC ++ '\n' :: dash3 ++ '\n' :: bodyC) dash3 = true := by
    simp [dash3, startsWithList]
  have hsplit : (dash3 ++ '\n' :: metaC ++ '\n' :: dash3 ++ '\n' :: bodyC).drop 3
      = ('\n' :: (metaC ++ ['\n'])) ++ ('-' :: '-' :: '-' :: '\n' :: bodyC) := by
    simp [dash3]
  have hbound : ∀ j, j < ('\n' :: (metaC ++ ['\n'])).length →
      startsWithList ((('\n' :: (metaC ++ ['\n'])).drop j)
        ++ ('-' :: '-' :: '-' :: '\n' :: bodyC)) dash3 = false := by
    intro j hjlen
    cases j with
    | zero =>
      simp [dash3, startsWithList, show ('\n' == '-') = false from by decide]
    | succ k =>
      have hk : k ≤ metaC.length := by
        simp only [List.length_cons, List.length_append, List.length_nil] at hjlen
        omega
      have hdropL : ('\n' :: (metaC ++ ['\n'])).drop (k + 1) = (metaC ++ ['\n']).drop k := rfl
      rw [hdropL, List.drop_append_eq_append_drop,
        show k - metaC.length = 0 from Nat.sub_eq_zero_of_le hk]
      rw [List.drop_zero]
      rw [List.append_assoc, List.singleton_append]
      exact startsWithList_dash3_newline (metaC.drop k) _ (hnosub k)
  have hfind : findSubFrom dash3
      ((('\n' :: (metaC ++ ['\n'])) ++ ('-' :: '-' :: '-' :: '\n' :: bodyC))) 3
      = some (3 + ('\n' :: (metaC ++ ['\n'])).length) := by
    rw [findSubFrom_append dash3 _ _ 3 hbound]
    show (if startsWithList ('-' :: '-' :: '-' :: '\n' :: bodyC) dash3 then
            some (3 + ('\n' :: (metaC ++ ['\n'])).length)
          else _) = _
    rw [show startsWithList ('-' :: '-' :: '-' :: '\n' :: bodyC) dash3 = true from by
      simp [dash3, startsWithList]]
    simp
  unfold stripFrontmatterChars
  rw [hstart]
  simp only [if_true]
  rw [hsplit, hfind]
  have hlL : ('\n' :: (metaC ++ ['\n'])).length = metaC.length + 2 := by
    simp
  rw [hlL]
  have hdropfin : (dash3 ++ '\n' :: metaC ++ '\n' :: dash3 ++ '\n' :: bodyC).drop
      (3 + (metaC.length + 2) + 3) = '\n' :: bodyC := by
    have hform : dash3 ++ '\n' :: metaC ++ '\n' :: dash3 ++ '\n' :: bodyC
        = (dash3 ++ '\n' :: metaC ++ '\n' :: dash3) ++ ('\n' :: bodyC) := by
      simp
    rw [hform]
    have hlenP : (dash3 ++ '\n' :: metaC ++ '\n' :: dash3).length
        = 3 + (metaC.length + 2) + 3 := by
      simp [dash3]
      omega
    rw [← hlenP, List.drop_left]
  show trimChars ((dash3 ++ '\n' :: metaC ++ '\n' :: dash3 ++ '\n' :: bodyC).drop
      (3 + (metaC.length + 2) + 3)) = trimChars bodyC
  rw [hdropfin, trimChars_newline]

/-- C5 (amended): for a retrieved body of the shape marker line, metadata,
marker line, remainder — the character sequence
"---\n" ++ meta ++ "\n---\n" ++ body — `openPost` removes everything up to and
including the second marker line and trims the remainder before conversion,
provided the three-dash substring does not occur inside the metadata: the code
searches for the next occurrence of the "---" substring from offset 3 rather
than for a marker line, and under that proviso the two coincide. In
particular the scenario body "---\ntitle: X\n---\n# Heading\nBody text" yields
"# Heading\nBody text": its first heading text is exactly "Heading" and it
contains no literal --- line. -/
theorem c5_strip_amended :
    (∀ metaC bodyC : List Char, findSubFrom dash3 metaC 0 = none →
        stripFrontmatterChars (dash3 ++ '\n' :: metaC ++ '\n' :: dash3 ++ '\n' :: bodyC)
          = trimChars bodyC)
    ∧ stripFrontmatter "---\ntitle: X\n---\n# Heading\nBody text" = "# Heading\nBody text"
    ∧ firstHeadingText (stripFrontmatter "---\ntitle: X\n---\n# Heading\nBody text")
        = some "Heading"
    ∧ ((splitOnNl (stripFrontmatter "---\ntitle: X\n---\n# Heading\nBody text").toList).contains
        dash3) = false := by
  exact ⟨fun metaC bodyC h => stripFrontmatterChars_meta metaC bodyC h,
    by decide, by decide, by decide⟩

/-- C5 witness: the general stripping equation instantiated at the scenario
metadata "title: X" and body "# Heading\nBody text". -/
theorem c5_strip_amended_witness :
    stripFrontmatterChars
        (dash3 ++ '\n' :: "title: X".toList ++ '\n' :: dash3 ++ '\n' :: "# Heading\nBody text".toList)
      = trimChars "# Heading\nBody text".toList :=
  c5_strip_amended.1 "title: X".toList "# Heading\nBody text".toList (by decide)
